import Mathlib

/-!
Verification of the adapter and budget-management layer of a Copilot chat
client, shallowly embedded from `src/context_manager.py` and
`src/copilot_api.py`.

Messages are OpenAI-style dicts `{role, content}`; content is either a plain
string or a multipart list of typed parts.  The exact-tokenizer path
(`tiktoken`) is an external library, so the per-string token counter is a
parameter `strTok`; the documented character-count fallback
`max(1, (len+2)//3)` is provided as `approx_str_tokens` and used for
concrete evaluations.
-/

/-- A multipart content part (`{"type": "text"|"image_url"|"image", ...}`). -/
inductive MsgPart where
  | text (s : String)
  | image_url (url : String)
  | image (media_type : String) (data : String)
  | other
  deriving DecidableEq, Repr

/-- Message content: a plain string or a multipart list (`str | list` in the
source). -/
inductive Content where
  | str (s : String)
  | parts (l : List MsgPart)
  deriving DecidableEq, Repr

/-- An OpenAI-style chat message `{"role": ..., "content": ...}`. -/
structure Message where
  role : String
  content : Content
  deriving DecidableEq, Repr

deriving instance DecidableEq for Except

/-- Constant `MAX_CONTEXT_TOKENS` from `context_manager.py`. -/
def MAX_CONTEXT_TOKENS : Int := 8192

/-- Constant `REPLY_BUFFER_TOKENS` from `context_manager.py`. -/
def REPLY_BUFFER_TOKENS : Int := 1024

/-- Constant `TOKENS_PER_MESSAGE` from `context_manager.py`. -/
def TOKENS_PER_MESSAGE : Nat := 4

/-- The documented fallback string token counter of `_count_str_tokens`:
`max(1, (len(text) + 2) // 3)`. -/
def approx_str_tokens (text : String) : Nat :=
  max 1 ((text.length + 2) / 3)

/-- Token cost of one multipart part inside `count_message_tokens`:
text parts cost their string tokens, image parts a fixed 256, anything else
is skipped. -/
def part_tokens (strTok : String → Nat) : MsgPart → Nat
  | .text s => strTok s
  | .image_url _ => 256
  | .image _ _ => 0
  | .other => 0

/-- Function `count_message_tokens` from `context_manager.py`: per-message framing
overhead plus the content cost. -/
def count_message_tokens (strTok : String → Nat) (m : Message) : Nat :=
  TOKENS_PER_MESSAGE +
    match m.content with
    | .str s => strTok s
    | .parts l => (l.map (part_tokens strTok)).sum

/-- Sum of the per-message costs of a list (no priming overhead yet). -/
def msgs_tokens (strTok : String → Nat) (l : List Message) : Nat :=
  (l.map (count_message_tokens strTok)).sum

/-- Function `count_messages_tokens` from `context_manager.py`: per-message costs plus
the 3-token reply-priming overhead. -/
def count_messages_tokens (strTok : String → Nat) (l : List Message) : Nat :=
  msgs_tokens strTok l + 3

/-- Group a digit string with thousands separators, as Python format `:,`. -/
def comma_group_rev : List Char → Nat → List Char
  | [], _ => []
  | c :: rest, k =>
    if k == 3 then
      c :: (match rest with
            | [] => []
            | _ :: _ => ',' :: comma_group_rev rest 1)
    else c :: comma_group_rev rest (k + 1)

/-- Render an integer with thousands separators, as Python format `:,`. -/
def comma_fmt (i : Int) : String :=
  if i < 0 then
    "-" ++ ⟨(comma_group_rev (toString (-i)).data.reverse 1).reverse⟩
  else
    ⟨(comma_group_rev (toString i).data.reverse 1).reverse⟩

/-- The bilingual `ValueError` message raised by `build_context_window` when
the mandatory messages alone exceed the budget. -/
def budget_error_message (fixed_tokens : Nat) (effective_budget : Int)
    (reply_buffer_tokens : Int) : String :=
  "현재 메시지가 너무 큽니다 (" ++ comma_fmt fixed_tokens ++ " 토큰). " ++
  "허용 가능한 최대 크기는 " ++ comma_fmt effective_budget ++ " 토큰입니다 " ++
  "(시스템 프롬프트 포함, 응답 공간 " ++ comma_fmt reply_buffer_tokens ++
  " 토큰 제외). 메시지를 줄이거나 첨부 파일을 제거해 주세요.\n\n" ++
  "Your message is too large (" ++ comma_fmt fixed_tokens ++ " tokens). " ++
  "Maximum allowed is " ++ comma_fmt effective_budget ++ " tokens " ++
  "(including system prompt, excluding " ++ comma_fmt reply_buffer_tokens ++
  " reply tokens). Please shorten your message or remove attachments."

/-- The greedy history-selection loop of `build_context_window`: walk the
history most-recent first (the argument is the reversed history), keep a
message while it fits in the remaining budget, and stop at the first message
that does not fit, discarding everything older. -/
def selectHistory (strTok : String → Nat) : List Message → Int → List Message
  | [], _ => []
  | m :: rest, remaining =>
    if (count_message_tokens strTok m : Int) ≤ remaining then
      selectHistory strTok rest
        (remaining - (count_message_tokens strTok m : Int)) ++ [m]
    else []

/-- Function `build_context_window` from `context_manager.py`.  `Except.error` models
the raised `ValueError`. -/
def build_context_window (strTok : String → Nat) (messages : List Message)
    (max_tokens : Int := MAX_CONTEXT_TOKENS)
    (reply_buffer_tokens : Int := REPLY_BUFFER_TOKENS) :
    Except String (List Message) :=
  match messages.getLast? with
  | none => .ok []
  | some current_user_msg =>
    let effective_budget := max_tokens - reply_buffer_tokens
    let front := messages.dropLast
    let system_msgs := front.filter (fun m => m.role == "system")
    let history_msgs := front.filter (fun m => !(m.role == "system"))
    let fixed_tokens := count_messages_tokens strTok
      (system_msgs ++ [current_user_msg])
    if (fixed_tokens : Int) > effective_budget then
      .error (budget_error_message fixed_tokens effective_budget
        reply_buffer_tokens)
    else
      let remaining := effective_budget - (fixed_tokens : Int)
      let selected_history := selectHistory strTok history_msgs.reverse
        remaining
      .ok (system_msgs ++ selected_history ++ [current_user_msg])

/-- The mandatory subset of a message list: all system messages of
`messages[:-1]` plus the final current-user message, as assembled by
`build_context_window`. -/
def mandatory_msgs (messages : List Message) : List Message :=
  messages.dropLast.filter (fun m => m.role == "system") ++
    messages.getLast?.toList

/-- Substring containment, used to state what the budget error reports. -/
def strContains (hay needle : String) : Prop :=
  ∃ pre post, hay = pre ++ needle ++ post

lemma msgs_tokens_append (strTok : String → Nat) (a b : List Message) :
    msgs_tokens strTok (a ++ b) = msgs_tokens strTok a + msgs_tokens strTok b := by
  simp [msgs_tokens]

lemma msgs_tokens_reverse (strTok : String → Nat) (l : List Message) :
    msgs_tokens strTok l.reverse = msgs_tokens strTok l := by
  simp [msgs_tokens, List.sum_reverse]

lemma msgs_tokens_cons (strTok : String → Nat) (m : Message) (l : List Message) :
    msgs_tokens strTok (m :: l) =
      count_message_tokens strTok m + msgs_tokens strTok l := by
  simp [msgs_tokens]

lemma msgs_tokens_filter_partition (strTok : String → Nat) (p : Message → Bool)
    (l : List Message) :
    msgs_tokens strTok (l.filter p) +
      msgs_tokens strTok (l.filter fun m => !(p m)) = msgs_tokens strTok l := by
  induction l with
  | nil => simp [msgs_tokens]
  | cons m rest ih =>
    cases hp : p m <;>
      simp only [List.filter_cons, hp, Bool.not_true, Bool.not_false,
        if_pos, if_neg, Bool.false_eq_true, not_false_iff, ite_true,
        ite_false, msgs_tokens_cons] <;> omega

lemma selectHistory_tokens_le (strTok : String → Nat) (l : List Message)
    (remaining : Int) (h : 0 ≤ remaining) :
    (msgs_tokens strTok (selectHistory strTok l remaining) : Int) ≤ remaining := by
  induction l generalizing remaining with
  | nil => simpa [selectHistory, msgs_tokens] using h
  | cons m rest ih =>
    by_cases hfit : (count_message_tokens strTok m : Int) ≤ remaining
    · rw [selectHistory, if_pos hfit, msgs_tokens_append]
      have hrec := ih (remaining - (count_message_tokens strTok m : Int))
        (by omega)
      have hm : msgs_tokens strTok [m] = count_message_tokens strTok m := by
        simp [msgs_tokens]
      rw [hm]
      push_cast at hrec ⊢
      omega
    · rw [selectHistory, if_neg hfit]
      simpa [msgs_tokens] using h

lemma selectHistory_all_fit (strTok : String → Nat) (l : List Message)
    (remaining : Int) (h : (msgs_tokens strTok l : Int) ≤ remaining) :
    selectHistory strTok l remaining = l.reverse := by
  induction l generalizing remaining with
  | nil => simp [selectHistory]
  | cons m rest ih =>
    rw [msgs_tokens_cons] at h
    push_cast at h
    have hm : (0 : Int) ≤ msgs_tokens strTok rest := by positivity
    rw [selectHistory, if_pos (by omega)]
    rw [ih (remaining - (count_message_tokens strTok m : Int)) (by omega)]
    simp

lemma msgs_tokens_singleton (strTok : String → Nat) (m : Message) :
    msgs_tokens strTok [m] = count_message_tokens strTok m := by
  simp [msgs_tokens]

lemma budget_error_message_contains_required (f : Nat) (b r : Int) :
    strContains (budget_error_message f b r) (comma_fmt f) :=
  ⟨"현재 메시지가 너무 큽니다 (",
   " 토큰). " ++ "허용 가능한 최대 크기는 " ++ comma_fmt b ++ " 토큰입니다 " ++
   "(시스템 프롬프트 포함, 응답 공간 " ++ comma_fmt r ++
   " 토큰 제외). 메시지를 줄이거나 첨부 파일을 제거해 주세요.\n\n" ++
   "Your message is too large (" ++ comma_fmt f ++ " tokens). " ++
   "Maximum allowed is " ++ comma_fmt b ++ " tokens " ++
   "(including system prompt, excluding " ++ comma_fmt r ++
   " reply tokens). Please shorten your message or remove attachments.",
   by simp [budget_error_message, String.append_assoc]⟩

lemma budget_error_message_contains_available (f : Nat) (b r : Int) :
    strContains (budget_error_message f b r) (comma_fmt b) :=
  ⟨"현재 메시지가 너무 큽니다 (" ++ comma_fmt f ++ " 토큰). " ++
   "허용 가능한 최대 크기는 ",
   " 토큰입니다 " ++ "(시스템 프롬프트 포함, 응답 공간 " ++ comma_fmt r ++
   " 토큰 제외). 메시지를 줄이거나 첨부 파일을 제거해 주세요.\n\n" ++
   "Your message is too large (" ++ comma_fmt f ++ " tokens). " ++
   "Maximum allowed is " ++ comma_fmt b ++ " tokens " ++
   "(including system prompt, excluding " ++ comma_fmt r ++
   " reply tokens). Please shorten your message or remove attachments.",
   by simp [budget_error_message, String.append_assoc]⟩

/-- claim C1: whenever the mandatory subset (system messages plus the final
current-user message) fits within `max_tokens - reply_buffer_tokens`,
`build_context_window` returns a list whose total token cost, as computed by
`count_messages_tokens`, is at most `max_tokens - reply_buffer_tokens`. -/
theorem build_context_window_within_budget (strTok : String → Nat)
    (messages : List Message) (max_tokens reply_buffer_tokens : Int)
    (hne : messages ≠ [])
    (hfit : (count_messages_tokens strTok (mandatory_msgs messages) : Int) ≤
      max_tokens - reply_buffer_tokens) :
    ∃ res, build_context_window strTok messages max_tokens reply_buffer_tokens
        = .ok res ∧
      (count_messages_tokens strTok res : Int) ≤
        max_tokens - reply_buffer_tokens := by
  rcases (messages.eq_nil_or_concat).resolve_left hne with ⟨L, b, rfl⟩
  simp only [mandatory_msgs, List.concat_eq_append, List.dropLast_concat,
    List.getLast?_concat, Option.toList_some] at hfit
  simp only [build_context_window, List.concat_eq_append,
    List.getLast?_concat, List.dropLast_concat]
  split
  next hgt => exact absurd hfit (by omega)
  next hle =>
    refine ⟨_, rfl, ?_⟩
    have h0 : (0 : Int) ≤ max_tokens - reply_buffer_tokens -
        (count_messages_tokens strTok
          (L.filter (fun m => m.role == "system") ++ [b]) : Int) := by omega
    have hsel := selectHistory_tokens_le strTok
      (L.filter (fun m => !(m.role == "system"))).reverse _ h0
    simp only [count_messages_tokens, msgs_tokens_append,
      msgs_tokens_singleton] at hfit hsel ⊢
    push_cast at hfit hsel ⊢
    omega

/-- claim C1 witness at a concrete input. -/
theorem build_context_window_within_budget_witness :
    ∃ res, build_context_window approx_str_tokens
        [⟨"system", .str "Be terse"⟩, ⟨"user", .str "Hi"⟩] 8192 1024 =
        .ok res ∧
      (count_messages_tokens approx_str_tokens res : Int) ≤ 8192 - 1024 :=
  build_context_window_within_budget approx_str_tokens
    [⟨"system", .str "Be terse"⟩, ⟨"user", .str "Hi"⟩] 8192 1024
    (by decide) (by decide)

/-- claim C3: on a non-empty message list, `build_context_window` raises its
budget error exactly when the mandatory subset's token cost exceeds
`max_tokens - reply_buffer_tokens`, and the raised message contains both the
required token count and the available budget (rendered with thousands
separators as the source formats them). -/
theorem build_context_window_error_iff (strTok : String → Nat)
    (messages : List Message) (max_tokens reply_buffer_tokens : Int)
    (hne : messages ≠ []) :
    ((∃ e, build_context_window strTok messages max_tokens reply_buffer_tokens
        = .error e) ↔
      (count_messages_tokens strTok (mandatory_msgs messages) : Int) >
        max_tokens - reply_buffer_tokens) ∧
    (∀ e, build_context_window strTok messages max_tokens reply_buffer_tokens
        = .error e →
      strContains e
        (comma_fmt (count_messages_tokens strTok (mandatory_msgs messages))) ∧
      strContains e (comma_fmt (max_tokens - reply_buffer_tokens))) := by
  rcases (messages.eq_nil_or_concat).resolve_left hne with ⟨L, b, rfl⟩
  simp only [mandatory_msgs, List.concat_eq_append, List.dropLast_concat,
    List.getLast?_concat, Option.toList_some]
  simp only [build_context_window, List.concat_eq_append,
    List.getLast?_concat, List.dropLast_concat]
  split
  next hgt =>
    refine ⟨⟨fun _ => hgt, fun _ => ⟨_, rfl⟩⟩, ?_⟩
    intro e he
    injection he with he
    rw [← he]
    exact ⟨budget_error_message_contains_required _ _ _,
      budget_error_message_contains_available _ _ _⟩
  next hle =>
    refine ⟨⟨fun ⟨e, he⟩ => absurd he (by simp), fun h => absurd h hle⟩, ?_⟩
    intro e he
    exact absurd he (by simp)

/-- claim C3 witness at a concrete input (a single oversized user message
with a tiny budget). -/
theorem build_context_window_error_iff_witness :
    ((∃ e, build_context_window approx_str_tokens
        [⟨"user", .str "0123456789012345678901234567890123456789"⟩] 10 0
        = .error e) ↔
      (count_messages_tokens approx_str_tokens
        (mandatory_msgs
          [⟨"user", .str "0123456789012345678901234567890123456789"⟩]) : Int) >
        10 - 0) ∧
    (∀ e, build_context_window approx_str_tokens
        [⟨"user", .str "0123456789012345678901234567890123456789"⟩] 10 0
        = .error e →
      strContains e
        (comma_fmt (count_messages_tokens approx_str_tokens
          (mandatory_msgs
            [⟨"user", .str "0123456789012345678901234567890123456789"⟩]))) ∧
      strContains e (comma_fmt (10 - 0))) :=
  build_context_window_error_iff approx_str_tokens
    [⟨"user", .str "0123456789012345678901234567890123456789"⟩] 10 0
    (by decide)

/-- claim C2 counterexample: every message of this list fits within the
budget, yet `build_context_window` does not return the input list — it
relocates the interleaved system message to the front. -/
theorem build_context_window_identity_counterexample :
    ((count_messages_tokens approx_str_tokens
        [⟨"user", .str "a"⟩, ⟨"system", .str "b"⟩, ⟨"user", .str "c"⟩] : Int)
      ≤ 1000 - 0) ∧
    build_context_window approx_str_tokens
        [⟨"user", .str "a"⟩, ⟨"system", .str "b"⟩, ⟨"user", .str "c"⟩] 1000 0
      ≠ .ok [⟨"user", .str "a"⟩, ⟨"system", .str "b"⟩, ⟨"user", .str "c"⟩] := by
  constructor
  · decide
  · intro h
    have : build_context_window approx_str_tokens
        [⟨"user", .str "a"⟩, ⟨"system", .str "b"⟩, ⟨"user", .str "c"⟩] 1000 0
        = .ok [⟨"system", .str "b"⟩, ⟨"user", .str "a"⟩, ⟨"user", .str "c"⟩] := by
      decide
    rw [this] at h
    exact absurd h (by decide)

/-- claim C2 (amended): if every message fits within the budget AND all
system messages of `messages[:-1]` already precede all non-system messages,
then `build_context_window` returns the input list unchanged. -/
theorem build_context_window_identity (strTok : String → Nat)
    (messages : List Message) (max_tokens reply_buffer_tokens : Int)
    (hne : messages ≠ [])
    (horder : messages.dropLast.filter (fun m => m.role == "system") ++
      messages.dropLast.filter (fun m => !(m.role == "system")) =
      messages.dropLast)
    (hfit : (count_messages_tokens strTok messages : Int) ≤
      max_tokens - reply_buffer_tokens) :
    build_context_window strTok messages max_tokens reply_buffer_tokens =
      .ok messages := by
  rcases (messages.eq_nil_or_concat).resolve_left hne with ⟨L, b, rfl⟩
  simp only [List.concat_eq_append, List.dropLast_concat] at horder
  simp only [List.concat_eq_append, count_messages_tokens,
    msgs_tokens_append, msgs_tokens_singleton] at hfit
  have hpart := msgs_tokens_filter_partition strTok
    (fun m => m.role == "system") L
  simp only [build_context_window, List.concat_eq_append,
    List.getLast?_concat, List.dropLast_concat]
  split
  next hgt =>
    exfalso
    simp only [count_messages_tokens, msgs_tokens_append,
      msgs_tokens_singleton] at hgt
    push_cast at hgt hfit
    omega
  next hle =>
    have hall : (msgs_tokens strTok
        (L.filter (fun m => !(m.role == "system"))).reverse : Int) ≤
        max_tokens - reply_buffer_tokens -
        (count_messages_tokens strTok
          (L.filter (fun m => m.role == "system") ++ [b]) : Int) := by
      rw [msgs_tokens_reverse]
      simp only [count_messages_tokens, msgs_tokens_append,
        msgs_tokens_singleton]
      push_cast
      omega
    rw [selectHistory_all_fit strTok _ _ hall, List.reverse_reverse, horder]

/-- claim C2 (amended) witness at a concrete input. -/
theorem build_context_window_identity_witness :
    build_context_window approx_str_tokens
      [⟨"system", .str "Be terse"⟩, ⟨"user", .str "Hi"⟩,
       ⟨"assistant", .str "Hello!"⟩, ⟨"user", .str "Bye"⟩] 8192 1024 =
    .ok [⟨"system", .str "Be terse"⟩, ⟨"user", .str "Hi"⟩,
       ⟨"assistant", .str "Hello!"⟩, ⟨"user", .str "Bye"⟩] :=
  build_context_window_identity approx_str_tokens
    [⟨"system", .str "Be terse"⟩, ⟨"user", .str "Hi"⟩,
     ⟨"assistant", .str "Hello!"⟩, ⟨"user", .str "Bye"⟩] 8192 1024
    (by decide) (by decide) (by decide)

/-- claim C10: calling `build_context_window` on the empty message list
returns the empty list without raising, for every budget and reply buffer. -/
theorem build_context_window_empty_input (strTok : String → Nat)
    (max_tokens reply_buffer_tokens : Int) :
    build_context_window strTok [] max_tokens reply_buffer_tokens = .ok [] :=
  rfl

/-- claim C4: whenever `build_context_window` returns without raising on a
non-empty message list, the last element of the returned list is the last
element of the input list. -/
theorem build_context_window_preserves_last (strTok : String → Nat)
    (messages : List Message) (max_tokens reply_buffer_tokens : Int)
    (hne : messages ≠ []) (res : List Message)
    (hok : build_context_window strTok messages max_tokens reply_buffer_tokens
      = .ok res) :
    res.getLast? = messages.getLast? := by
  rcases (messages.eq_nil_or_concat).resolve_left hne with ⟨L, b, rfl⟩
  simp only [build_context_window, List.concat_eq_append,
    List.getLast?_concat, List.dropLast_concat] at hok ⊢
  split at hok
  · exact absurd hok (by simp)
  · injection hok with hres
    rw [← hres]
    exact List.getLast?_concat _

/-- claim C4 witness at a concrete input. -/
theorem build_context_window_preserves_last_witness :
    ∃ res, build_context_window approx_str_tokens
        [⟨"system", .str "Be terse"⟩, ⟨"user", .str "Hi"⟩] 8192 1024 =
        .ok res ∧
      res.getLast? = ([⟨"system", .str "Be terse"⟩, ⟨"user", .str "Hi"⟩] :
        List Message).getLast? := by
  refine ⟨[⟨"system", .str "Be terse"⟩, ⟨"user", .str "Hi"⟩], by decide, ?_⟩
  exact build_context_window_preserves_last approx_str_tokens
    [⟨"system", .str "Be terse"⟩, ⟨"user", .str "Hi"⟩] 8192 1024
    (by decide) _ (by decide)


/-- Text pieces collected by `_flatten_content` from a multipart list: text
parts contribute their text, image parts the placeholder, others are
skipped. -/
def flatten_part_texts : List MsgPart → List String
  | [] => []
  | .text s :: rest => s :: flatten_part_texts rest
  | .image_url _ :: rest => "[image]" :: flatten_part_texts rest
  | .image _ _ :: rest => flatten_part_texts rest
  | .other :: rest => flatten_part_texts rest

/-- Function `_flatten_content` from `copilot_api.py`: plain text regardless of
whether the content is a string or a multipart list. -/
def _flatten_content : Content → String
  | .str s => s
  | .parts l => String.intercalate "\n" (flatten_part_texts l)

/-- Python `url.partition(",")` restricted to the first two components. -/
def partition_comma (s : String) : String × String :=
  match s.splitOn "," with
  | [] => (s, "")
  | [x] => (x, "")
  | x :: rest => (x, String.intercalate "," rest)

/-- Python `s.split(":", 1)[-1]`: everything after the first colon (the
whole string when there is none). -/
def after_first_colon (s : String) : String :=
  match s.splitOn ":" with
  | [] => s
  | [x] => x
  | _ :: rest => String.intercalate ":" rest

/-- Python `s.split(";", 1)[0]`: everything before the first semicolon. -/
def before_first_semicolon (s : String) : String :=
  match s.splitOn ";" with
  | [] => s
  | x :: _ => x

/-- Function `_convert_image_parts_for_claude` from `copilot_api.py`: inline
`data:`-URL images become native Claude image blocks, remote-URL images
become a text placeholder naming the URL, everything else passes through. -/
def _convert_image_parts_for_claude : List MsgPart → List MsgPart
  | [] => []
  | .image_url url :: rest =>
    if url.startsWith "data:" then
      let media_type :=
        before_first_semicolon (after_first_colon (partition_comma url).1)
      .image (if media_type == "" then "image/png" else media_type)
          (partition_comma url).2 ::
        _convert_image_parts_for_claude rest
    else
      .text ("[image: " ++ url ++ "]") :: _convert_image_parts_for_claude rest
  | p :: rest => p :: _convert_image_parts_for_claude rest

/-- Python truthiness-guarded coercion of content to a part list inside
`_merge_messages` (`_as_list`). -/
def _as_list : Content → List MsgPart
  | .parts l => l
  | .str c => if c == "" then [] else [.text c]

/-- Function `_merge_messages` from `copilot_api.py`: merge two same-role messages,
concatenating strings with a newline or coercing both sides to multipart. -/
def _merge_messages (a b : Message) : Message :=
  match a.content, b.content with
  | .str ac, .str bc => ⟨a.role, .str (ac ++ "\n" ++ bc)⟩
  | ac, bc => ⟨a.role, .parts (_as_list ac ++ _as_list bc)⟩

/-- Role coercion of the Claude formatter: anything other than
`user`/`assistant` becomes `assistant`. -/
def normalize_claude_role (r : String) : String :=
  if r == "user" || r == "assistant" then r else "assistant"

/-- The message loop of `_format_messages_claude`: extract system text,
normalize roles, convert image parts, and merge consecutive same-role
messages into the accumulated body. -/
def _format_messages_claude_go :
    List Message → Option String → List Message →
    List Message × Option String
  | [], system_text, body => (body, system_text)
  | msg :: rest, system_text, body =>
    if msg.role == "system" then
      let text := _flatten_content msg.content
      let st := match system_text with
        | none => some text
        | some s => some (s ++ "\n" ++ text)
      _format_messages_claude_go rest st body
    else
      let role := normalize_claude_role msg.role
      let content := match msg.content with
        | .parts l => Content.parts (_convert_image_parts_for_claude l)
        | c => c
      let body' := match body.getLast? with
        | some last =>
          if last.role == role then
            body.dropLast ++ [_merge_messages last ⟨role, content⟩]
          else body ++ [⟨role, content⟩]
        | none => body ++ [⟨role, content⟩]
      _format_messages_claude_go rest system_text body'

/-- Function `_format_messages_claude` from `copilot_api.py`: returns the body and
the extracted system text, prepending a synthetic `(start)` user message
when the body would otherwise not begin with a user turn. -/
def _format_messages_claude (messages : List Message) :
    List Message × Option String :=
  match _format_messages_claude_go messages none [] with
  | (body, system_text) =>
    match body.head? with
    | some first =>
      if first.role == "user" then (body, system_text)
      else (⟨"user", .str "(start)"⟩ :: body, system_text)
    | none => (body, system_text)

/-- Collapse each run of consecutive equal elements to a single element. -/
def collapseRuns : List String → List String
  | [] => []
  | [a] => [a]
  | a :: b :: rest =>
    if a = b then collapseRuns (b :: rest) else a :: collapseRuns (b :: rest)

/-- Tail-recursive run collapsing, matching how the formatter loop extends
its accumulated body one message at a time. -/
def collapseApp : List String → List String → List String
  | xs, [] => xs
  | xs, r :: rs =>
    collapseApp (if xs.getLast? = some r then xs else xs ++ [r]) rs

lemma _merge_messages_role (a b : Message) :
    (_merge_messages a b).role = a.role := by
  obtain ⟨ar, ac⟩ := a
  obtain ⟨br, bc⟩ := b
  cases ac <;> cases bc <;> rfl

lemma collapseApp_concat (rs : List String) : ∀ (xs : List String) (a : String),
    collapseApp (xs ++ [a]) rs = xs ++ collapseRuns (a :: rs) := by
  induction rs with
  | nil => intro xs a; simp [collapseApp, collapseRuns]
  | cons r rs ih =>
    intro xs a
    rw [collapseApp]
    by_cases h : a = r
    · subst h
      rw [if_pos (by rw [List.getLast?_concat]), ih]
      simp [collapseRuns]
    · rw [if_neg (by rw [List.getLast?_concat]; simpa using h),
        List.append_assoc, ← List.singleton_append, ← List.append_assoc, ih]
      have : collapseRuns (a :: r :: rs) = a :: collapseRuns (r :: rs) := by
        rw [collapseRuns, if_neg h]
      rw [this]
      simp

lemma collapseApp_nil_eq (rs : List String) :
    collapseApp [] rs = collapseRuns rs := by
  cases rs with
  | nil => rfl
  | cons r rs =>
    rw [collapseApp, if_neg (by simp)]
    simpa using collapseApp_concat rs [] r

lemma collapseRuns_ne_nil (l : List String) (h : l ≠ []) :
    collapseRuns l ≠ [] := by
  induction l with
  | nil => exact absurd rfl h
  | cons a rest ih =>
    cases rest with
    | nil => simp [collapseRuns]
    | cons b rest' =>
      rw [collapseRuns]
      split
      · exact ih (by simp)
      · simp

/-- Normalized roles of the messages that reach the Claude body: system
messages are removed, all other roles are normalized. -/
def claude_body_roles (messages : List Message) : List String :=
  (messages.filter (fun m => !(m.role == "system"))).map
    (fun m => normalize_claude_role m.role)

lemma _format_messages_claude_go_roles (l : List Message) :
    ∀ (st : Option String) (body : List Message),
    ((_format_messages_claude_go l st body).1).map Message.role =
      collapseApp (body.map Message.role) (claude_body_roles l) := by
  induction l with
  | nil =>
    intro st body
    simp [_format_messages_claude_go, claude_body_roles, collapseApp]
  | cons msg rest ih =>
    intro st body
    by_cases hsys : msg.role == "system"
    · rw [_format_messages_claude_go, if_pos hsys]
      rw [ih]
      have : claude_body_roles (msg :: rest) = claude_body_roles rest := by
        simp [claude_body_roles, List.filter_cons, hsys]
      rw [this]
    · rw [_format_messages_claude_go, if_neg hsys]
      rw [ih]
      have hroles : claude_body_roles (msg :: rest) =
          normalize_claude_role msg.role :: claude_body_roles rest := by
        simp [claude_body_roles, List.filter_cons, hsys]
      rw [hroles, collapseApp]
      congr 1
      rcases hlast : body.getLast? with _ | last
      · rcases body.eq_nil_or_concat with rfl | ⟨B, x, rfl⟩
        · simp [if_neg]
        · rw [List.concat_eq_append, List.getLast?_concat] at hlast
          exact absurd hlast (by simp)
      · rcases body.eq_nil_or_concat with rfl | ⟨B, x, rfl⟩
        · exact absurd hlast (by simp)
        · rw [List.concat_eq_append] at hlast ⊢
          rw [List.getLast?_concat] at hlast
          injection hlast with hx
          subst hx
          simp only []
          by_cases heq : x.role == normalize_claude_role msg.role
          · rw [if_pos heq, List.dropLast_concat]
            simp [List.map_append, List.getLast?_concat,
              _merge_messages_role, eq_of_beq heq]
          · rw [if_neg heq]
            have hne' : x.role ≠ normalize_claude_role msg.role := by
              simpa using heq
            simp [List.map_append, List.getLast?_concat, hne']

/-- claim C5: for a non-empty message list ending in a `user` message, the
Claude formatter's body realizes exactly one message per run of consecutive
same-normalized-role messages among the messages that reach the body (system
messages are extracted), possibly preceded by one synthetic placeholder user
message, and the first body message always has role `user`. -/
theorem format_messages_claude_runs (messages : List Message)
    (hlast : messages.getLast?.map Message.role = some "user") :
    ((_format_messages_claude messages).1.map Message.role =
        collapseRuns (claude_body_roles messages) ∨
      (_format_messages_claude messages).1.map Message.role =
        "user" :: collapseRuns (claude_body_roles messages)) ∧
    (_format_messages_claude messages).1.head?.map Message.role =
      some "user" := by
  have hbody0 := _format_messages_claude_go_roles messages none []
  rw [List.map_nil, collapseApp_nil_eq] at hbody0
  have hmem : ∃ m, m ∈ messages ∧ m.role = "user" := by
    rcases hget : messages.getLast? with _ | m
    · rw [hget] at hlast; exact absurd hlast (by simp)
    · rw [hget] at hlast
      refine ⟨m, List.mem_of_mem_getLast? (by rw [hget]; exact rfl), ?_⟩
      simpa using hlast
  obtain ⟨m, hm, hrole⟩ := hmem
  have hfilter_ne : claude_body_roles messages ≠ [] := by
    have : m ∈ messages.filter (fun m => !(m.role == "system")) := by
      rw [List.mem_filter]
      exact ⟨hm, by simp [hrole]⟩
    simp only [claude_body_roles, ne_eq, List.map_eq_nil_iff]
    exact fun hc => absurd (hc ▸ this) (List.not_mem_nil m)
  have hruns_ne : collapseRuns (claude_body_roles messages) ≠ [] :=
    collapseRuns_ne_nil _ hfilter_ne
  have hbody_ne : (_format_messages_claude_go messages none []).1 ≠ [] := by
    intro hc
    rw [hc] at hbody0
    exact hruns_ne (by simpa using hbody0.symm)
  rcases hgo : _format_messages_claude_go messages none [] with ⟨body0, st0⟩
  rw [hgo] at hbody0 hbody_ne
  simp only at hbody0 hbody_ne
  rcases hhead : body0.head? with _ | first
  · exact absurd (List.head?_eq_none_iff.mp hhead) hbody_ne
  · by_cases hfirst : first.role == "user"
    · have hbody : (_format_messages_claude messages).1 = body0 := by
        simp [_format_messages_claude, hgo, hhead, hfirst]
      rw [hbody]
      refine ⟨Or.inl hbody0, ?_⟩
      rw [hhead]
      simpa using eq_of_beq hfirst
    · have hbody : (_format_messages_claude messages).1 =
          ⟨"user", .str "(start)"⟩ :: body0 := by
        simp [_format_messages_claude, hgo, hhead, hfirst]
      rw [hbody]
      exact ⟨Or.inr (by rw [List.map_cons, hbody0]), by simp⟩

/-- claim C5 witness at a concrete input: an assistant-first conversation
gets a synthetic leading user message. -/
theorem format_messages_claude_runs_witness :
    ((_format_messages_claude
        [⟨"assistant", .str "ready"⟩, ⟨"user", .str "go"⟩]).1.map
          Message.role =
        collapseRuns (claude_body_roles
          [⟨"assistant", .str "ready"⟩, ⟨"user", .str "go"⟩]) ∨
      (_format_messages_claude
        [⟨"assistant", .str "ready"⟩, ⟨"user", .str "go"⟩]).1.map
          Message.role =
        "user" :: collapseRuns (claude_body_roles
          [⟨"assistant", .str "ready"⟩, ⟨"user", .str "go"⟩])) ∧
    (_format_messages_claude
      [⟨"assistant", .str "ready"⟩, ⟨"user", .str "go"⟩]).1.head?.map
        Message.role = some "user" :=
  format_messages_claude_runs
    [⟨"assistant", .str "ready"⟩, ⟨"user", .str "go"⟩] (by decide)

/-- Executable character-list core of Python `str.replace` (all
non-overlapping occurrences, left to right); `fuel` bounds the recursion by
the input length. -/
def replace_chars_go (pat rep : List Char) : Nat → List Char → List Char
  | 0, l => l
  | _ + 1, [] => []
  | fuel + 1, c :: rest =>
    if pat ≠ [] ∧ pat.isPrefixOf (c :: rest) then
      rep ++ replace_chars_go pat rep fuel ((c :: rest).drop pat.length)
    else c :: replace_chars_go pat rep fuel rest

/-- Python `s.replace(pat, rep)` for non-empty `pat`, over the character
list so that it evaluates inside the kernel. -/
def str_replace (s pat rep : String) : String :=
  ⟨replace_chars_go pat.data rep.data s.data.length s.data⟩

/-- Split a character list on a separator character (Python
`s.split(sep)` for a one-character separator, keeping empty fields). -/
def split_chars (sep : Char) : List Char → List (List Char)
  | [] => [[]]
  | c :: rest =>
    if c = sep then [] :: split_chars sep rest
    else
      match split_chars sep rest with
      | [] => [[c]]
      | g :: gs => (c :: g) :: gs

/-- Python `s.split(sep)` for a one-character separator. -/
def str_split_char (s : String) (sep : Char) : List String :=
  (split_chars sep s.data).map String.mk

/-- Python `sep.join(l)`. -/
def str_join (sep : String) : List String → String
  | [] => ""
  | [x] => x
  | x :: rest => x ++ sep ++ str_join sep rest

/-- Python truthiness-guarded first-character digit test
(`parts[i] and parts[i][0].isdigit()`). -/
def starts_with_digit (s : String) : Bool :=
  match s.data with
  | [] => false
  | c :: _ => c.isDigit

/-- Structure `ModelLimits` from `copilot_api.py`. -/
structure ModelLimits where
  max_context_window_tokens : Nat
  max_prompt_tokens : Nat
  max_output_tokens : Nat
  deriving DecidableEq, Repr

/-- A Python dict write `cache[k] = lim` on a mapping modelled as a
function. -/
def cache_insert (cache : String → Option ModelLimits) (k : String)
    (lim : ModelLimits) : String → Option ModelLimits :=
  fun q => if q = k then some lim else cache q

/-- The digit-boundary variant of `_store_model_aliases`:
`"-".join(parts[:i]) + "." + ".".join(parts[i:])`. -/
def digit_variant (parts : List String) (i : Nat) : String :=
  str_join "-" (parts.take i) ++ "." ++ str_join "." (parts.drop i)

/-- The index loop of `_store_model_aliases`: for every position whose
hyphen-delimited segment begins with a digit, store the dotted variant
unless it is the canonical id or already cached. -/
def store_digit_variants (model_id : String) (lim : ModelLimits)
    (parts : List String) :
    List Nat → (String → Option ModelLimits) → (String → Option ModelLimits)
  | [], cache => cache
  | i :: rest, cache =>
    let cache' :=
      if starts_with_digit (parts.getD i "") then
        let variant := digit_variant parts i
        if variant ≠ model_id ∧ (cache variant).isNone then
          cache_insert cache variant lim
        else cache
      else cache
    store_digit_variants model_id lim parts rest cache'

/-- Function `_store_model_aliases` from `copilot_api.py`: store the dots-to-hyphens
and hyphens-to-dots spellings unconditionally (when distinct from the
canonical id), then the digit-boundary variants of the hyphenated form when
not already present. -/
def _store_model_aliases (cache : String → Option ModelLimits)
    (model_id : String) (lim : ModelLimits) : String → Option ModelLimits :=
  let alt1 := str_replace model_id "." "-"
  let cache1 := if alt1 ≠ model_id then cache_insert cache alt1 lim else cache
  let alt2 := str_replace model_id "-" "."
  let cache2 := if alt2 ≠ model_id then cache_insert cache1 alt2 lim else cache1
  let parts := str_split_char (str_replace model_id "." "-") '-'
  store_digit_variants model_id lim parts
    ((List.range parts.length).drop 1) cache2

/-- The registration step of `fetch_model_limits` for one model entry:
store under the canonical id, then the generated aliases. -/
def register_model (cache : String → Option ModelLimits) (model_id : String)
    (lim : ModelLimits) : String → Option ModelLimits :=
  _store_model_aliases (cache_insert cache model_id lim) model_id lim

/-- claim C6: registering limits under `claude-opus-4.5` makes a lookup of
`claude-opus-4-5` return the same limits, and registering under
`claude-opus-4-5` makes a lookup of `claude-opus-4.5` return the same
limits (starting from an empty cache). -/
theorem model_alias_law (lim : ModelLimits) :
    register_model (fun _ => none) "claude-opus-4.5" lim "claude-opus-4-5" =
      some lim ∧
    register_model (fun _ => none) "claude-opus-4-5" lim "claude-opus-4.5" =
      some lim := by
  constructor <;> rfl

/-- The nested `capabilities.limits` object of one model-catalog entry;
`none` fields are keys absent from the JSON, defaulted by the parser. -/
structure LimitsObj where
  max_context_window_tokens : Option Nat
  max_prompt_tokens : Option Nat
  max_output_tokens : Option Nat
  deriving DecidableEq, Repr

/-- One model-catalog entry: `{"id": ..., "capabilities": {"limits": ...}}`;
`limits = none` models a missing or empty limits object (skipped). -/
structure ModelEntry where
  id : String
  limits : Option LimitsObj
  deriving DecidableEq, Repr

/-- The parsed JSON body of the models endpoint: `{"data": [...]}`, a bare
list, or an unexpected shape. -/
inductive ModelsResponse where
  | data_list (models : List ModelEntry)
  | bare_list (models : List ModelEntry)
  | unexpected
  deriving DecidableEq, Repr

/-- Outcome of the HTTP fetch inside `fetch_model_limits`: a non-2xx status
(`raise_for_status`), a network error, any other exception, or a parsed
body. -/
inductive FetchOutcome where
  | http_error (status : Nat) (detail : String)
  | connection_error (detail : String)
  | other_error (detail : String)
  | success (body : ModelsResponse)
  deriving DecidableEq, Repr

/-- Build `ModelLimits` from a limits object with the source's defaults
(`8192`, `8192`, `1024`). -/
def parse_limits (l : LimitsObj) : ModelLimits :=
  ⟨l.max_context_window_tokens.getD 8192,
   l.max_prompt_tokens.getD 8192,
   l.max_output_tokens.getD 1024⟩

/-- The entry loop of `fetch_model_limits`: entries without a limits object
are skipped, the rest are registered under their canonical id and
aliases. -/
def register_models :
    List ModelEntry → (String → Option ModelLimits) →
    (String → Option ModelLimits)
  | [], cache => cache
  | e :: rest, cache =>
    match e.limits with
    | none => register_models rest cache
    | some l => register_models rest (register_model cache e.id (parse_limits l))

/-- Function `fetch_model_limits` from `copilot_api.py`, with the HTTP interaction
represented by its outcome: every failure path (and the unexpected-format
path) returns the previously cached mapping; a parsed body registers its
entries into the cache. -/
def fetch_model_limits (cache : String → Option ModelLimits)
    (outcome : FetchOutcome) : String → Option ModelLimits :=
  match outcome with
  | .http_error _ _ => cache
  | .connection_error _ => cache
  | .other_error _ => cache
  | .success body =>
    match body with
    | .unexpected => cache
    | .data_list models => register_models models cache
    | .bare_list models => register_models models cache

/-- A fetch outcome that `fetch_model_limits` treats as a failure: any
non-2xx/network/other error, or a body of unexpected shape. -/
def fetch_failed : FetchOutcome → Bool
  | .success (.data_list _) => false
  | .success (.bare_list _) => false
  | _ => true

/-- claim C7: on any fetch failure (non-2xx HTTP status, network error,
other error, or an unexpected response shape), `fetch_model_limits` returns
the previously cached mapping unchanged, and lookups of ids absent from the
old cache still return nothing. -/
theorem fetch_model_limits_failure_keeps_cache
    (cache : String → Option ModelLimits) (outcome : FetchOutcome)
    (h : fetch_failed outcome = true) :
    fetch_model_limits cache outcome = cache ∧
    ∀ model_id, cache model_id = none →
      fetch_model_limits cache outcome model_id = none := by
  have hc : fetch_model_limits cache outcome = cache := by
    cases outcome with
    | http_error s d => rfl
    | connection_error d => rfl
    | other_error d => rfl
    | success body =>
      cases body with
      | data_list models => exact absurd h (by simp [fetch_failed])
      | bare_list models => exact absurd h (by simp [fetch_failed])
      | unexpected => rfl
  exact ⟨hc, fun model_id hnone => by rw [hc]; exact hnone⟩

/-- A concrete one-entry cache used to exercise the failure path. -/
def demo_cache : String → Option ModelLimits :=
  fun q => if q = "gpt-4.1" then some ⟨128000, 64000, 16384⟩ else none

/-- claim C7 witness at a concrete failed outcome and cache. -/
theorem fetch_model_limits_failure_keeps_cache_witness :
    fetch_model_limits demo_cache (.http_error 500 "internal error") =
      demo_cache ∧
    ∀ model_id, demo_cache model_id = none →
      fetch_model_limits demo_cache (.http_error 500 "internal error")
        model_id = none :=
  fetch_model_limits_failure_keeps_cache demo_cache
    (.http_error 500 "internal error") rfl

/-- Python `line.startswith(prefixStr)`, over character lists so that it
evaluates inside the kernel. -/
def str_starts_with (s pre : String) : Bool :=
  pre.data.isPrefixOf s.data

/-- Python `line[n:]` for ASCII wire lines. -/
def str_drop (s : String) (n : Nat) : String :=
  ⟨s.data.drop n⟩

/-- The first choice of a streamed chunk, holding
`choices[0].get("delta", {}).get("content", "")`. -/
structure SseChoice where
  delta_content : String
  deriving DecidableEq, Repr

/-- The parsed JSON of one SSE payload: `chunk.get("choices", [])`. -/
structure SseChunk where
  choices : List SseChoice
  deriving DecidableEq, Repr

/-- Function `CopilotClient._parse_sse` from `copilot_api.py`, over the received wire
lines, with the host JSON parser passed in as `json_loads` (`none` models a
`JSONDecodeError`, which is logged and skipped).  Empty lines and lines
without the `data: ` marker are skipped, `data: [DONE]` terminates the
stream, and non-empty `choices[0].delta.content` fragments are yielded. -/
def _parse_sse (json_loads : String → Option SseChunk) :
    List String → List String
  | [] => []
  | raw_line :: rest =>
    if raw_line = "" then _parse_sse json_loads rest
    else if !(str_starts_with raw_line "data: ") then _parse_sse json_loads rest
    else if str_drop raw_line 6 = "[DONE]" then []
    else
      match json_loads (str_drop raw_line 6) with
      | none => _parse_sse json_loads rest
      | some chunk =>
        match chunk.choices with
        | [] => _parse_sse json_loads rest
        | choice :: _ =>
          if choice.delta_content ≠ "" then
            choice.delta_content :: _parse_sse json_loads rest
          else _parse_sse json_loads rest

/-- The wire payload carrying fragment `A`. -/
def sse_payload_A : String :=
  "\x7b\"choices\":[\x7b\"delta\":\x7b\"content\":\"A\"\x7d\x7d]\x7d"

/-- The wire payload carrying fragment `B`. -/
def sse_payload_B : String :=
  "\x7b\"choices\":[\x7b\"delta\":\x7b\"content\":\"B\"\x7d\x7d]\x7d"

/-- The wire payload carrying fragment `C`, sent after the sentinel. -/
def sse_payload_C : String :=
  "\x7b\"choices\":[\x7b\"delta\":\x7b\"content\":\"C\"\x7d\x7d]\x7d"

/-- claim C8: for any JSON parser that parses the `A` and `B` payloads to
their chunks, the generic SSE decoder yields exactly `A` then `B` and stops
at the `[DONE]` sentinel; the `C` line after the sentinel is never consulted,
so nothing constrains its parse and `C` is never yielded. -/
theorem parse_sse_stops_at_done (json_loads : String → Option SseChunk)
    (hA : json_loads sse_payload_A = some (SseChunk.mk [SseChoice.mk "A"]))
    (hB : json_loads sse_payload_B = some (SseChunk.mk [SseChoice.mk "B"])) :
    _parse_sse json_loads
      ["data: " ++ sse_payload_A, "data: " ++ sse_payload_B,
       "data: [DONE]", "data: " ++ sse_payload_C] = ["A", "B"] := by
  have hdropA : str_drop ("data: " ++ sse_payload_A) 6 = sse_payload_A := by
    decide
  have hdropB : str_drop ("data: " ++ sse_payload_B) 6 = sse_payload_B := by
    decide
  rw [_parse_sse, if_neg (by decide), if_neg (by decide), if_neg (by decide),
    hdropA, hA]
  simp only []
  rw [if_pos (by decide)]
  rw [_parse_sse, if_neg (by decide), if_neg (by decide), if_neg (by decide),
    hdropB, hB]
  simp only []
  rw [if_pos (by decide)]
  rw [_parse_sse, if_neg (by decide), if_neg (by decide), if_pos (by decide)]

/-- A concrete JSON parser covering exactly the three scripted payloads. -/
def demo_json_loads : String → Option SseChunk :=
  fun s =>
    if s = sse_payload_A then some (SseChunk.mk [SseChoice.mk "A"])
    else if s = sse_payload_B then some (SseChunk.mk [SseChoice.mk "B"])
    else if s = sse_payload_C then some (SseChunk.mk [SseChoice.mk "C"])
    else none

/-- claim C8 witness with the concrete parser. -/
theorem parse_sse_stops_at_done_witness :
    _parse_sse demo_json_loads
      ["data: " ++ sse_payload_A, "data: " ++ sse_payload_B,
       "data: [DONE]", "data: " ++ sse_payload_C] = ["A", "B"] :=
  parse_sse_stops_at_done demo_json_loads (by decide) (by decide)

/-- Program counter of one thread running `CopilotClient._ensure_token`:
about to evaluate the expiry check, about to perform the token exchange, or
finished. -/
inductive RefreshPC where
  | start
  | refreshing
  | done
  deriving DecidableEq, Repr

/-- Shared `CopilotClient` token state plus the positions of two concurrent
callers of `_ensure_token`.  `copilot_token` abstracts the bearer string as
a version number and `exchange_calls` counts `get_copilot_token` network
calls. -/
structure TokenState where
  token_expires_at : Int
  copilot_token : Nat
  exchange_calls : Nat
  pc1 : RefreshPC
  pc2 : RefreshPC
  deriving DecidableEq, Repr

/-- Interleaving semantics of two concurrent `_ensure_token` calls.  Each
thread first atomically evaluates `now >= self._token_expires_at - 60`
(line 400) and then, if it decided to refresh, atomically performs the
exchange and the assignment to `(self._copilot_token,
self._token_expires_at)` (line 404).  There is no lock in the source, so
the two threads' steps interleave freely. -/
inductive ensure_token_step (now fresh_expiry : Int) :
    TokenState → TokenState → Prop where
  | check_expired1 (s : TokenState) (h : s.pc1 = .start)
      (hc : now ≥ s.token_expires_at - 60) :
      ensure_token_step now fresh_expiry s { s with pc1 := .refreshing }
  | check_fresh1 (s : TokenState) (h : s.pc1 = .start)
      (hc : ¬(now ≥ s.token_expires_at - 60)) :
      ensure_token_step now fresh_expiry s { s with pc1 := .done }
  | refresh1 (s : TokenState) (h : s.pc1 = .refreshing) :
      ensure_token_step now fresh_expiry s
        { s with copilot_token := s.copilot_token + 1,
                 exchange_calls := s.exchange_calls + 1,
                 token_expires_at := fresh_expiry,
                 pc1 := .done }
  | check_expired2 (s : TokenState) (h : s.pc2 = .start)
      (hc : now ≥ s.token_expires_at - 60) :
      ensure_token_step now fresh_expiry s { s with pc2 := .refreshing }
  | check_fresh2 (s : TokenState) (h : s.pc2 = .start)
      (hc : ¬(now ≥ s.token_expires_at - 60)) :
      ensure_token_step now fresh_expiry s { s with pc2 := .done }
  | refresh2 (s : TokenState) (h : s.pc2 = .refreshing) :
      ensure_token_step now fresh_expiry s
        { s with copilot_token := s.copilot_token + 1,
                 exchange_calls := s.exchange_calls + 1,
                 token_expires_at := fresh_expiry,
                 pc2 := .done }

/-- claim C9 fails on the code: `_ensure_token` has no lock, so when two
concurrent chat calls both observe the expired token before either writes
the refreshed one, both perform the network exchange.  This exhibits a
complete interleaving from an expired initial state in which
`get_copilot_token` is called twice, contradicting the claimed single-flight
behavior (which would allow exactly one exchange). -/
theorem ensure_token_race_two_exchanges :
    ∃ s : TokenState,
      Relation.ReflTransGen (ensure_token_step 1000 5000)
        ⟨0, 0, 0, .start, .start⟩ s ∧
      s.pc1 = .done ∧ s.pc2 = .done ∧ s.exchange_calls = 2 := by
  refine ⟨⟨5000, 2, 2, .done, .done⟩, ?_, rfl, rfl, rfl⟩
  have h1 : ensure_token_step 1000 5000 ⟨0, 0, 0, .start, .start⟩
      ⟨0, 0, 0, .refreshing, .start⟩ :=
    .check_expired1 ⟨0, 0, 0, .start, .start⟩ rfl (by norm_num)
  have h2 : ensure_token_step 1000 5000 ⟨0, 0, 0, .refreshing, .start⟩
      ⟨0, 0, 0, .refreshing, .refreshing⟩ :=
    .check_expired2 ⟨0, 0, 0, .refreshing, .start⟩ rfl (by norm_num)
  have h3 : ensure_token_step 1000 5000 ⟨0, 0, 0, .refreshing, .refreshing⟩
      ⟨5000, 1, 1, .done, .refreshing⟩ :=
    .refresh1 ⟨0, 0, 0, .refreshing, .refreshing⟩ rfl
  have h4 : ensure_token_step 1000 5000 ⟨5000, 1, 1, .done, .refreshing⟩
      ⟨5000, 2, 2, .done, .done⟩ :=
    .refresh2 ⟨5000, 1, 1, .done, .refreshing⟩ rfl
  exact .tail (.tail (.tail (.tail .refl h1) h2) h3) h4
